import Mathlib

/-!
Verification of the OPC UA color-checker analytics application.

The development shallowly embeds the frame-acquisition and color-evaluation
pipeline of the application:

* `ColorArea` and its two concrete geometries (`src/src/ColorArea.cpp`):
  crop-window computation, mask construction, masked mean color and the
  per-channel tolerance test.  C `double` arithmetic is modelled by exact
  rationals, OpenCV matrices by dimensions plus a pixel lookup function, and
  a failed `assert` by an `Option` result (`none` = assertion failure).
* `ImageProvider` (`src/src/ImageProvider.cpp`): stream-resolution selection
  and the two GLib queues (`delivered_frames_`, `processed_frames_`) that
  implement the producer/consumer buffer-recycling protocol.  A `GQueue` is
  modelled as a `List` whose head is the queue head.
* `OpcUaServer.UpdateColorAreaValue` (`src/src/opcuaserver.cpp`) and the
  per-tick analysis function `imageanalysis`
  (`src/src/opcuacolorchecker.cpp`), with the OPC UA server state as an
  `Option` (none = not launched) and event-bus emissions collected in a list.
-/

set_option linter.unusedVariables false

/-- OpenCV color triple as used by the application: a `cv::Scalar` restricted
to the three color channels, in OpenCV's B, G, R channel order (enum
`ColorComponent` in `ColorArea.hpp`).  Channel values are exact rationals in
place of C `double`s. -/
structure Scalar where
  b : ℚ
  g : ℚ
  r : ℚ
  deriving DecidableEq, Repr

/-- OpenCV image (`cv::Mat` of BGR pixels): dimensions plus a pixel lookup
`pixel x y` for column `x` and row `y`. -/
structure Mat where
  width : ℕ
  height : ℕ
  pixel : ℕ → ℕ → Scalar

/-- OpenCV `cv::Range` with the half-open span `[start, stop)`; `stop` stands
for the C++ field `end`, which is a reserved word here. -/
structure CvRange where
  start : ℤ
  stop : ℤ
  deriving DecidableEq, Repr

/-- Fields of class `ColorArea` (src/src/ColorArea.cpp) after construction.
The single-channel mask `colorarea_mask_` is held as a predicate on
crop-relative pixel coordinates `(x, y)`. -/
structure ColorArea where
  color_ : Scalar
  img_w : ℕ
  img_h : ℕ
  markerwidth_ : ℕ
  markerheight_ : ℕ
  tolerance_ : ℕ
  croprange_x_ : CvRange
  croprange_y_ : CvRange
  point_center_ : ℤ × ℤ
  colorarea_mask_ : ℤ → ℤ → Bool

/-- Base constructor `ColorArea::ColorArea` (src/src/ColorArea.cpp lines
37-93): computes the crop ranges by one-sided clamping of
`center ± marker/2` against the image bounds, and re-expresses the center
point relative to the crop origin.  `markerwidth / 2` is C unsigned integer
division; the point coordinates are C `int`, modelled as `ℤ`.  The mask is
left empty; the two subclass constructors fill it in. -/
def ColorArea.make (img : Mat) (point_center : ℤ × ℤ) (color : Scalar)
    (markerwidth markerheight tolerance : ℕ) : ColorArea :=
  let max_x : ℤ := point_center.1 + (markerwidth / 2 : ℕ)
  let max_y : ℤ := point_center.2 + (markerheight / 2 : ℕ)
  let min_x : ℤ := point_center.1 - (markerwidth / 2 : ℕ)
  let min_y : ℤ := point_center.2 - (markerheight / 2 : ℕ)
  let max_x := if (img.width : ℤ) < max_x then (img.width : ℤ) else max_x
  let max_y := if (img.height : ℤ) < max_y then (img.height : ℤ) else max_y
  let min_x := if 0 > min_x then 0 else min_x
  let min_y := if 0 > min_y then 0 else min_y
  { color_ := color
    img_w := img.width
    img_h := img.height
    markerwidth_ := markerwidth
    markerheight_ := markerheight
    tolerance_ := tolerance
    croprange_x_ := ⟨min_x, max_x⟩
    croprange_y_ := ⟨min_y, max_y⟩
    point_center_ := (point_center.1 - min_x, point_center.2 - min_y)
    colorarea_mask_ := fun _ _ => false }

/-- Membership in the filled ellipse with center `c` and semi-axes `a` (half
width) and `b` (half height).  Models the OpenCV call
`ellipse(mask, center, Size(a, b), 0, 0, 360, white, -1, LINE_8, 0)` in the
`ColorAreaEllipse` constructor as the ideal filled ellipse. -/
def insideEllipse (c : ℤ × ℤ) (a b : ℕ) (x y : ℤ) : Bool :=
  decide ((b : ℤ) ^ 2 * (x - c.1) ^ 2 + (a : ℤ) ^ 2 * (y - c.2) ^ 2
    ≤ (a : ℤ) ^ 2 * (b : ℤ) ^ 2)

/-- Constructor `ColorAreaEllipse::ColorAreaEllipse` (src/src/ColorArea.cpp
lines 134-170): the mask is zeroed then a filled ellipse with semi-axes
`(markerwidth / 2, markerheight / 2)` is drawn at the crop-relative center. -/
def ColorAreaEllipse.make (img : Mat) (point_center : ℤ × ℤ) (color : Scalar)
    (markerwidth markerheight tolerance : ℕ) : ColorArea :=
  let base := ColorArea.make img point_center color markerwidth markerheight tolerance
  { base with
    colorarea_mask_ := fun x y =>
      insideEllipse base.point_center_ (markerwidth / 2) (markerheight / 2) x y }

/-- Constructor `ColorAreaRectangle::ColorAreaRectangle`
(src/src/ColorArea.cpp lines 172-198): the mask is `Mat::ones * 255`, fully
opaque over the whole crop window. -/
def ColorAreaRectangle.make (img : Mat) (point_center : ℤ × ℤ) (color : Scalar)
    (markerwidth markerheight tolerance : ℕ) : ColorArea :=
  let base := ColorArea.make img point_center color markerwidth markerheight tolerance
  { base with colorarea_mask_ := fun _ _ => true }

/-- Pixels of the cropped image that the mask lets through, in row-major
order: models the combination `img(croprange_y_, croprange_x_)` followed by
masking in `cv::mean(crop_img, colorarea_mask_)`.  Crop-relative coordinates
`(i, j)` address image pixel `(croprange_x_.start + i, croprange_y_.start + j)`. -/
def ColorArea.maskedPixels (ca : ColorArea) (img : Mat) : List Scalar :=
  (List.range (ca.croprange_y_.stop - ca.croprange_y_.start).toNat).flatMap fun (j : ℕ) =>
    (List.range (ca.croprange_x_.stop - ca.croprange_x_.start).toNat).filterMap fun (i : ℕ) =>
      if ca.colorarea_mask_ (i : ℤ) (j : ℤ) then
        some (img.pixel (ca.croprange_x_.start + (i : ℤ)).toNat
          (ca.croprange_y_.start + (j : ℤ)).toNat)
      else none

/-- OpenCV `cv::mean` over a pixel list: per-channel arithmetic mean, and the
zero scalar when no pixel passes the mask. -/
def cvMean (pixels : List Scalar) : Scalar :=
  if pixels.length = 0 then ⟨0, 0, 0⟩
  else
    ⟨(pixels.map Scalar.b).sum / pixels.length,
     (pixels.map Scalar.g).sum / pixels.length,
     (pixels.map Scalar.r).sum / pixels.length⟩

/-- Method `ColorArea::GetAverageColor` (src/src/ColorArea.cpp lines 99-109):
asserts that the input image has the construction-time size (`none` models
the failed assertion), then crops and returns the masked mean. -/
def ColorArea.GetAverageColor (ca : ColorArea) (img : Mat) : Option Scalar :=
  if img.width = ca.img_w ∧ img.height = ca.img_h then
    some (cvMean (ca.maskedPixels img))
  else none

/-- Method `ColorArea::ColorAreaValueWithinTolerance` (src/src/ColorArea.cpp
lines 111-132): asserts the image size, computes the average color and
returns `tolerance_ > |color_ - currentavg|` for each of the three channels,
conjoined. -/
def ColorArea.ColorAreaValueWithinTolerance (ca : ColorArea) (img : Mat) : Option Bool :=
  if ca.img_w = img.width ∧ ca.img_h = img.height then
    (ca.GetAverageColor img).map fun currentavg =>
      decide ((ca.tolerance_ : ℚ) > |ca.color_.r - currentavg.r|) &&
      decide ((ca.tolerance_ : ℚ) > |ca.color_.g - currentavg.g|) &&
      decide ((ca.tolerance_ : ℚ) > |ca.color_.b - currentavg.b|)
  else none

/-- One resolution reported by the VDO channel (`VdoResolution`). -/
structure VdoResolution where
  width : ℕ
  height : ℕ
  deriving DecidableEq, Repr

/-- C `UINT_MAX`, the initial value of `bestResolutionArea`. -/
def UINT_MAX : ℕ := 2 ^ 32 - 1

/-- Selection loop of `ImageProvider::ChooseStreamResolution`
(src/src/ImageProvider.cpp lines 160-177): scan the reported resolutions in
order, keeping the index of the smallest area among those at least as wide
and as tall as requested.  `area` is C unsigned multiplication, hence the
reduction mod 2^32; the comparison with the running best is strict, so ties
keep the earlier index.  Returns (`bestResolutionIdx`, `bestResolutionArea`);
`none` models index -1. -/
def findBestResolution (resolutions : List VdoResolution) (reqWidth reqHeight : ℕ) :
    Option ℕ × ℕ :=
  resolutions.enum.foldl
    (fun best p =>
      if reqWidth ≤ p.2.width ∧ reqHeight ≤ p.2.height then
        let area := p.2.width * p.2.height % 2 ^ 32
        if area < best.2 then (some p.1, area) else best
      else best)
    (none, UINT_MAX)

/-- Method `ImageProvider::ChooseStreamResolution` (src/src/ImageProvider.cpp
lines 131-209), past the VDO query: given the reported resolution list and
the values the by-reference out parameters `chosenWidth`/`chosenHeight` hold
at the call, returns their values at exit.  The fallback path is transcribed
exactly as written in the source: `chosenWidth = reqWidth; chosenWidth =
reqHeight;` assigns `chosenWidth` twice and never assigns `chosenHeight`. -/
def ChooseStreamResolution (reqWidth reqHeight : ℕ) (resolutions : List VdoResolution)
    (chosenWidth0 chosenHeight0 : ℕ) : ℕ × ℕ :=
  let best := findBestResolution resolutions reqWidth reqHeight
  let chosenWidth := reqWidth
  let chosenWidth := reqHeight
  match best.1 with
  | some i => ((resolutions.getD i ⟨0, 0⟩).width, (resolutions.getD i ⟨0, 0⟩).height)
  | none => (chosenWidth, chosenHeight0)

/-- GLib `g_queue_push_tail`: append at the tail (list head = queue head). -/
def gQueuePushTail {α : Type} (q : List α) (x : α) : List α := q ++ [x]

/-- GLib `g_queue_pop_head`: detach and return the head element, `none` on an
empty queue. -/
def gQueuePopHead {α : Type} (q : List α) : Option α × List α :=
  match q with
  | [] => (none, [])
  | x :: xs => (some x, xs)

/-- GLib `g_queue_pop_tail`: detach and return the tail element, `none` on an
empty queue. -/
def gQueuePopTail {α : Type} (q : List α) : Option α × List α :=
  match q.getLast? with
  | none => (none, q)
  | some x => (some x, q.dropLast)

/-- Method `ImageProvider::GetLastFrameBlocking` (src/src/ImageProvider.cpp
lines 357-378) as a function of the delivered queue: while the queue holds
fewer than one frame the caller waits on `frame_deliver_cond_` (modelled as
`none`: no return happens in this state); otherwise `g_queue_pop_tail` yields
the frame handed to the caller together with the remaining queue. -/
def GetLastFrameBlocking {α : Type} (delivered : List α) : Option (α × List α) :=
  if delivered.length < 1 then none
  else
    match gQueuePopTail delivered with
    | (some buf, q) => some (buf, q)
    | (none, _) => none

/-- Queue state of an `ImageProvider` together with the configured
number-of-recent-frames `num_app_frames_`. -/
structure ProviderState (α : Type) where
  delivered_frames_ : List α
  processed_frames_ : List α
  num_app_frames_ : ℕ

/-- Method `ImageProvider::RunLoopIteration` (src/src/ImageProvider.cpp lines
390-443) after a successful `vdo_stream_get_buffer`: push the new buffer at
the delivered tail, then pick `oldBuffer` — the processed head if that queue
is non-empty, else the delivered head when the delivered length exceeds
`num_app_frames_`, else null.  Returns the new queue state and the buffer
recycled to VDO (`none` when no recycle happens this iteration). -/
def RunLoopIteration {α : Type} (st : ProviderState α) (newBuffer : α) :
    ProviderState α × Option α :=
  let delivered := gQueuePushTail st.delivered_frames_ newBuffer
  if 0 < st.processed_frames_.length then
    let (oldBuffer, processed) := gQueuePopHead st.processed_frames_
    (⟨delivered, processed, st.num_app_frames_⟩, oldBuffer)
  else if st.num_app_frames_ < delivered.length then
    let (oldBuffer, delivered2) := gQueuePopHead delivered
    (⟨delivered2, st.processed_frames_, st.num_app_frames_⟩, oldBuffer)
  else
    (⟨delivered, st.processed_frames_, st.num_app_frames_⟩, none)

/-- OPC UA server once launched: the value held by the ColorAreaReading
boolean node. -/
structure ServerState where
  colorAreaValue : Bool
  deriving DecidableEq, Repr

/-- Method `OpcUaServer::UpdateColorAreaValue` (src/src/opcuaserver.cpp lines
93-107): with a null server handle (server not launched) the call returns at
once; otherwise the node value is written unconditionally. -/
def UpdateColorAreaValue (server : Option ServerState) (value : Bool) : Option ServerState :=
  match server with
  | none => none
  | some s => some { s with colorAreaValue := value }

/-- Marker shapes (enum `MarkerShape` in src/src/opcuacolorchecker.cpp). -/
inductive MarkerShape where
  | Ellipse
  | Rectangle
  deriving DecidableEq, Repr

/-- Region configuration held by the `ParamHandler`: center point, reference
color, marker geometry and tolerance. -/
structure ParamState where
  center : ℤ × ℤ
  color : Scalar
  markerwidth : ℕ
  markerheight : ℕ
  markershape : MarkerShape
  tolerance : ℕ

/-- The `switch (paramhandler->GetMarkerShape())` of `imageanalysis`
(src/src/opcuacolorchecker.cpp lines 125-152) that constructs a new color
area from the current configuration and frame. -/
def buildColorArea (p : ParamState) (bgr : Mat) : ColorArea :=
  match p.markershape with
  | .Ellipse => ColorAreaEllipse.make bgr p.center p.color p.markerwidth p.markerheight p.tolerance
  | .Rectangle => ColorAreaRectangle.make bgr p.center p.color p.markerwidth p.markerheight p.tolerance

/-- Process-wide mutable state read and written by one `imageanalysis` tick:
the pending pick-current flag, the last published boolean `currentstate`,
the cached evaluator, the parameter store and the OPC UA server. -/
structure AppState where
  pickcurrent : Bool
  currentstate : Bool
  colorarea : Option ColorArea
  params : ParamState
  server : Option ServerState

/-- One `imageanalysis` tick (src/src/opcuacolorchecker.cpp lines 82-168)
past frame acquisition and NV12-to-BGR conversion, as a function of the
converted frame `bgr`: handle a pending pick-current request when an
evaluator exists (store the measured color, purge the evaluator, clear the
flag), lazily rebuild the evaluator, evaluate the tolerance predicate, always
push the result to the OPC UA server, and send an event-bus notification only
on a state transition.  Returns the successor state and the list of events
sent this tick; `none` models a failed assertion inside evaluation. -/
def imageanalysis (st : AppState) (bgr : Mat) : Option (AppState × List Bool) :=
  let pickStep : Option (ParamState × Option ColorArea × Bool) :=
    match st.pickcurrent, st.colorarea with
    | true, some ca =>
      match ca.GetAverageColor bgr with
      | some c => some ({ st.params with color := c }, none, false)
      | none => none
    | _, _ => some (st.params, st.colorarea, st.pickcurrent)
  match pickStep with
  | none => none
  | some (params1, ca1, pick1) =>
    let ca2 := ca1.getD (buildColorArea params1 bgr)
    match ca2.ColorAreaValueWithinTolerance bgr with
    | none => none
    | some newstate =>
      let server1 := UpdateColorAreaValue st.server newstate
      if newstate ≠ st.currentstate then
        some ({ pickcurrent := pick1, currentstate := newstate, colorarea := some ca2,
                params := params1, server := server1 }, [newstate])
      else
        some ({ pickcurrent := pick1, currentstate := st.currentstate, colorarea := some ca2,
                params := params1, server := server1 }, [])

/-- Image whose every pixel holds the same color, for the synthetic
uniform-image properties. -/
def uniformMat (W H : ℕ) (c : Scalar) : Mat := ⟨W, H, fun _ _ => c⟩

/-- Concrete 4x4 frame uniformly colored (B, G, R) = (150, 132, 130), the
end-to-end scenario of the specification. -/
def demoImg : Mat := ⟨4, 4, fun _ _ => ⟨150, 132, 130⟩⟩

/-- Rectangle evaluator with reference color (R, G, B) = (125, 130, 142) and
tolerance 17 over `demoImg`, the end-to-end scenario of the specification. -/
def demoArea : ColorArea := ColorAreaRectangle.make demoImg (2, 2) ⟨142, 130, 125⟩ 2 2 17

/-- Image whose dimensions differ from those `demoArea` was built for. -/
def badImg : Mat := ⟨3, 4, fun _ _ => ⟨0, 0, 0⟩⟩

/-- Region configuration matching `demoArea`. -/
def demoParams : ParamState := ⟨(2, 2), ⟨142, 130, 125⟩, 2, 2, .Rectangle, 17⟩

/-- Application state before a tick: no pending pick-current request, last
published boolean false, no cached evaluator, server launched. -/
def demoApp : AppState := ⟨false, false, none, demoParams, some ⟨false⟩⟩

/-- Application state after one tick from `demoApp` on `demoImg`. -/
def demoApp2 : AppState := ⟨false, true, some demoArea, demoParams, some ⟨true⟩⟩

/-- Application state with a pending pick-current request and no cached
evaluator. -/
def demoAppPick : AppState := ⟨true, false, none, demoParams, some ⟨false⟩⟩

/-- Application state after one tick from `demoAppPick` on `demoImg`: the
pick-current request is still pending, the evaluator has been rebuilt. -/
def demoAppPick2 : AppState := ⟨true, true, some demoArea, demoParams, some ⟨true⟩⟩

theorem ColorArea.make_croprange_x (img : Mat) (pc : ℤ × ℤ) (color : Scalar)
    (mw mh tol : ℕ) :
    (ColorArea.make img pc color mw mh tol).croprange_x_ =
      ⟨max (pc.1 - (mw / 2 : ℕ)) 0, min (pc.1 + (mw / 2 : ℕ)) img.width⟩ := by
  simp only [ColorArea.make, CvRange.mk.injEq]
  constructor <;> split <;> omega

theorem ColorArea.make_croprange_y (img : Mat) (pc : ℤ × ℤ) (color : Scalar)
    (mw mh tol : ℕ) :
    (ColorArea.make img pc color mw mh tol).croprange_y_ =
      ⟨max (pc.2 - (mh / 2 : ℕ)) 0, min (pc.2 + (mh / 2 : ℕ)) img.height⟩ := by
  simp only [ColorArea.make, CvRange.mk.injEq]
  constructor <;> split <;> omega

theorem ColorArea.make_point_center (img : Mat) (pc : ℤ × ℤ) (color : Scalar)
    (mw mh tol : ℕ) :
    (ColorArea.make img pc color mw mh tol).point_center_ =
      (pc.1 - max (pc.1 - (mw / 2 : ℕ)) 0, pc.2 - max (pc.2 - (mh / 2 : ℕ)) 0) := by
  simp only [ColorArea.make, Prod.mk.injEq]
  constructor <;> split <;> omega

/-- C3: the evaluator constructor computes the crop rectangle as the marker
rectangle `[center ± marker/2]` clamped to the image bounds — stated both as
endpoint equations (lower bounds clamped at 0, upper bounds at the image
extent) and as the set identity that a pixel coordinate lies in the stored
crop range exactly when it lies in the requested marker rectangle and in the
image; the construction is total (never fails), and the stored center is the
requested center re-expressed relative to the crop origin. -/
theorem colorArea_crop_clamped (img : Mat) (pc : ℤ × ℤ) (color : Scalar)
    (mw mh tol : ℕ) :
    ((ColorArea.make img pc color mw mh tol).croprange_x_.start
        = max (pc.1 - (mw / 2 : ℕ)) 0 ∧
      (ColorArea.make img pc color mw mh tol).croprange_x_.stop
        = min (pc.1 + (mw / 2 : ℕ)) img.width ∧
      (ColorArea.make img pc color mw mh tol).croprange_y_.start
        = max (pc.2 - (mh / 2 : ℕ)) 0 ∧
      (ColorArea.make img pc color mw mh tol).croprange_y_.stop
        = min (pc.2 + (mh / 2 : ℕ)) img.height) ∧
    (∀ x : ℤ,
      ((ColorArea.make img pc color mw mh tol).croprange_x_.start ≤ x ∧
        x < (ColorArea.make img pc color mw mh tol).croprange_x_.stop) ↔
      (pc.1 - (mw / 2 : ℕ) ≤ x ∧ x < pc.1 + (mw / 2 : ℕ) ∧ 0 ≤ x ∧ x < img.width)) ∧
    (∀ y : ℤ,
      ((ColorArea.make img pc color mw mh tol).croprange_y_.start ≤ y ∧
        y < (ColorArea.make img pc color mw mh tol).croprange_y_.stop) ↔
      (pc.2 - (mh / 2 : ℕ) ≤ y ∧ y < pc.2 + (mh / 2 : ℕ) ∧ 0 ≤ y ∧ y < img.height)) ∧
    (ColorArea.make img pc color mw mh tol).point_center_ =
      (pc.1 - (ColorArea.make img pc color mw mh tol).croprange_x_.start,
       pc.2 - (ColorArea.make img pc color mw mh tol).croprange_y_.start) := by
  rw [ColorArea.make_croprange_x, ColorArea.make_croprange_y, ColorArea.make_point_center]
  refine ⟨⟨rfl, rfl, rfl, rfl⟩, fun x => ?_, fun y => ?_, rfl⟩ <;> dsimp <;> omega

/-- C1: for an image of the construction-time dimensions, the tolerance test
returns true exactly when each of the three channel differences between the
reference color and the computed average is strictly below the tolerance,
and a difference exactly equal to the tolerance in any channel forces a
false result. -/
theorem within_tolerance_iff_channelwise (ca : ColorArea) (img : Mat) (avg : Scalar)
    (hw : img.width = ca.img_w) (hh : img.height = ca.img_h)
    (havg : ca.GetAverageColor img = some avg) :
    (ca.ColorAreaValueWithinTolerance img = some true ↔
      (|ca.color_.r - avg.r| < (ca.tolerance_ : ℚ) ∧
       |ca.color_.g - avg.g| < (ca.tolerance_ : ℚ) ∧
       |ca.color_.b - avg.b| < (ca.tolerance_ : ℚ))) ∧
    ((|ca.color_.r - avg.r| = (ca.tolerance_ : ℚ) ∨
      |ca.color_.g - avg.g| = (ca.tolerance_ : ℚ) ∨
      |ca.color_.b - avg.b| = (ca.tolerance_ : ℚ)) →
      ca.ColorAreaValueWithinTolerance img = some false) := by
  rw [ColorArea.ColorAreaValueWithinTolerance, if_pos ⟨hw.symm, hh.symm⟩, havg]
  constructor
  · simp [gt_iff_lt, and_assoc]
  · intro hcase
    have hfalse : (decide ((ca.tolerance_ : ℚ) > |ca.color_.r - avg.r|) &&
        decide ((ca.tolerance_ : ℚ) > |ca.color_.g - avg.g|) &&
        decide ((ca.tolerance_ : ℚ) > |ca.color_.b - avg.b|)) = false := by
      rcases hcase with h | h | h <;> simp [h, lt_irrefl]
    exact congrArg some hfalse

theorem demoArea_avg : demoArea.GetAverageColor demoImg = some ⟨150, 132, 130⟩ := by
  have hpix : demoArea.maskedPixels demoImg =
      [⟨150, 132, 130⟩, ⟨150, 132, 130⟩, ⟨150, 132, 130⟩, ⟨150, 132, 130⟩] := by decide
  rw [ColorArea.GetAverageColor, if_pos ⟨by decide, by decide⟩, hpix]
  norm_num [cvMean]

/-- C1 witness: the specification scenario — reference (R, G, B) =
(125, 130, 142), tolerance 17, uniform image color (130, 132, 150), channel
differences (5, 2, 8) — evaluates within tolerance. -/
theorem within_tolerance_iff_channelwise_witness :
    demoArea.ColorAreaValueWithinTolerance demoImg = some true :=
  (within_tolerance_iff_channelwise demoArea demoImg ⟨150, 132, 130⟩ rfl rfl
    demoArea_avg).1.mpr
    (by norm_num [demoArea, ColorAreaRectangle.make, ColorArea.make, abs_sub_lt_iff])

/-- C8: the masked-mean computation requires the input image to have exactly
the construction-time dimensions: under that precondition it always returns
a value (the assertion-failure branch is unreachable), and on any image of
different dimensions both it and the tolerance test fail instead of
returning a value. -/
theorem getAverageColor_requires_construction_size (ca : ColorArea) (img : Mat) :
    ((img.width = ca.img_w ∧ img.height = ca.img_h) →
      ∃ c, ca.GetAverageColor img = some c) ∧
    (¬(img.width = ca.img_w ∧ img.height = ca.img_h) →
      ca.GetAverageColor img = none ∧ ca.ColorAreaValueWithinTolerance img = none) := by
  constructor
  · intro h
    exact ⟨cvMean (ca.maskedPixels img), by rw [ColorArea.GetAverageColor, if_pos h]⟩
  · intro h
    constructor
    · rw [ColorArea.GetAverageColor, if_neg h]
    · rw [ColorArea.ColorAreaValueWithinTolerance, if_neg (by tauto)]

/-- C8 witness: `demoArea` succeeds on the image it was built for and fails
on an image one column narrower. -/
theorem getAverageColor_requires_construction_size_witness :
    (∃ c, demoArea.GetAverageColor demoImg = some c) ∧
    demoArea.GetAverageColor badImg = none :=
  ⟨(getAverageColor_requires_construction_size demoArea demoImg).1 ⟨rfl, rfl⟩,
   ((getAverageColor_requires_construction_size demoArea badImg).2 (by decide)).1⟩

/-- C9: updating the color-area value with a null server handle (the OPC UA
server not yet launched) is a silent no-op for every boolean argument. -/
theorem updateColorAreaValue_unlaunched_noop (v : Bool) :
    UpdateColorAreaValue none v = none := rfl

/-- C4 (counter-evidence): with requested size 640x360 and no resolution
reported by VDO, the transcribed source returns `chosenWidth = 360` (the
requested height, due to the double assignment to `chosenWidth`) and leaves
`chosenHeight` at its prior value 0, instead of the requested (640, 360)
that both the claim and the function's own documentation promise. -/
theorem chooseStreamResolution_fallback_bug :
    ChooseStreamResolution 640 360 [] 0 0 = (360, 0) ∧ (360, 0) ≠ (640, 360) :=
  ⟨rfl, by decide⟩

theorem gQueuePopHead_eq {α : Type} (q : List α) : gQueuePopHead q = (q.head?, q.tail) := by
  cases q <;> rfl

/-- C5: on a delivered queue holding at least one frame, the blocking getter
returns the queue's tail — the most recently delivered frame — and removes
it, leaving exactly the earlier-delivered frames; on an empty queue it
returns nothing (the caller keeps waiting on the condition variable). -/
theorem getLastFrameBlocking_newest {α : Type} (q : List α) (h : q ≠ []) :
    (∃ f rest, GetLastFrameBlocking q = some (f, rest) ∧ q = rest ++ [f]) ∧
    GetLastFrameBlocking ([] : List α) = none := by
  refine ⟨⟨q.getLast h, q.dropLast, ?_, (q.dropLast_append_getLast h).symm⟩, rfl⟩
  rw [GetLastFrameBlocking,
    if_neg (by have := List.length_pos.mpr h; omega), gQueuePopTail,
    List.getLast?_eq_getLast q h]

/-- C5 witness: on the queue [7, 9] the getter returns frame 9 and leaves
[7]. -/
theorem getLastFrameBlocking_newest_witness :
    (∃ f rest, GetLastFrameBlocking [7, 9] = some (f, rest) ∧ [7, 9] = rest ++ [f]) ∧
    GetLastFrameBlocking ([] : List ℕ) = none :=
  getLastFrameBlocking_newest [7, 9] (by decide)

/-- C6: each successful producer iteration appends the new frame at the
delivered tail and then recycles exactly one buffer in strict priority
order — the processed head if that queue is non-empty, else the delivered
head exactly when the delivered length (including the new frame) exceeds the
configured keep count, else none — leaving the queues updated accordingly. -/
theorem runLoopIteration_recycle_priority {α : Type} (st : ProviderState α) (b : α) :
    ((RunLoopIteration st b).2 =
      if 0 < st.processed_frames_.length then st.processed_frames_.head?
      else if st.num_app_frames_ < (st.delivered_frames_ ++ [b]).length then
        (st.delivered_frames_ ++ [b]).head?
      else none) ∧
    ((RunLoopIteration st b).1.processed_frames_ =
      if 0 < st.processed_frames_.length then st.processed_frames_.tail
      else st.processed_frames_) ∧
    ((RunLoopIteration st b).1.delivered_frames_ =
      if st.processed_frames_.length = 0 ∧
          st.num_app_frames_ < (st.delivered_frames_ ++ [b]).length then
        (st.delivered_frames_ ++ [b]).tail
      else st.delivered_frames_ ++ [b]) ∧
    (RunLoopIteration st b).1.num_app_frames_ = st.num_app_frames_ := by
  rcases st with ⟨d, p, n⟩
  by_cases hp : p = []
  · subst hp
    by_cases hn : n < d.length + 1 <;>
      simp [RunLoopIteration, gQueuePushTail, gQueuePopHead_eq, List.length_append, hn]
  · have hlen : 0 < p.length := List.length_pos.mpr hp
    simp [RunLoopIteration, gQueuePushTail, gQueuePopHead_eq, hlen,
      Nat.pos_iff_ne_zero.mp hlen]

/-- C7: whenever a tick completes, an event-bus notification is sent exactly
when the newly evaluated within-tolerance boolean differs from the stored
previous boolean; the stored boolean then equals the new value, and the OPC
UA server cache is updated from the new value on every tick regardless. -/
theorem imageanalysis_event_iff_transition (st : AppState) (bgr : Mat)
    (st2 : AppState) (events : List Bool)
    (h : imageanalysis st bgr = some (st2, events)) :
    ∃ newstate : Bool, ∃ ca : ColorArea,
      st2.colorarea = some ca ∧
      ca.ColorAreaValueWithinTolerance bgr = some newstate ∧
      events = (if newstate = st.currentstate then [] else [newstate]) ∧
      (events ≠ [] ↔ newstate ≠ st.currentstate) ∧
      st2.currentstate = newstate ∧
      st2.server = UpdateColorAreaValue st.server newstate := by
  simp only [imageanalysis] at h
  split at h
  · exact absurd h (by simp)
  · rename_i params1 ca1 pick1 heq1
    split at h
    · exact absurd h (by simp)
    · rename_i newstate heq2
      refine ⟨newstate, ca1.getD (buildColorArea params1 bgr), ?_⟩
      split at h
      · rename_i hne
        obtain ⟨hst, hev⟩ := Prod.mk.injEq .. ▸ Option.some.injEq .. ▸ h
        subst hst hev
        refine ⟨rfl, heq2, by simp [Ne.symm, hne], by simp [hne], rfl, rfl⟩
      · rename_i hne
        have heqs : newstate = st.currentstate := by
          by_contra hc
          exact hne hc
        obtain ⟨hst, hev⟩ := Prod.mk.injEq .. ▸ Option.some.injEq .. ▸ h
        subst hst hev
        exact ⟨rfl, heq2, by simp [heqs], by simp [heqs], heqs.symm, rfl⟩

theorem demo_build : buildColorArea demoParams demoImg = demoArea := rfl

theorem demo_within : demoArea.ColorAreaValueWithinTolerance demoImg = some true := by
  rw [ColorArea.ColorAreaValueWithinTolerance, if_pos ⟨rfl, rfl⟩, demoArea_avg]
  norm_num [demoArea, ColorAreaRectangle.make, ColorArea.make, abs_sub_lt_iff]

theorem demo_tick : imageanalysis demoApp demoImg = some (demoApp2, [true]) := by
  rw [imageanalysis]
  simp only [demoApp, demoApp2, Option.getD, demo_build, demo_within, UpdateColorAreaValue]
  simp [demo_build, demo_within, UpdateColorAreaValue]

/-- C7 witness: a tick from previous state false that evaluates true sends
exactly one event and updates the stored boolean and the server cache. -/
theorem imageanalysis_event_iff_transition_witness :
    ∃ newstate : Bool, ∃ ca : ColorArea,
      demoApp2.colorarea = some ca ∧
      ca.ColorAreaValueWithinTolerance demoImg = some newstate ∧
      [true] = (if newstate = demoApp.currentstate then [] else [newstate]) ∧
      ([true] ≠ [] ↔ newstate ≠ demoApp.currentstate) ∧
      demoApp2.currentstate = newstate ∧
      demoApp2.server = UpdateColorAreaValue demoApp.server newstate :=
  imageanalysis_event_iff_transition demoApp demoImg demoApp2 [true] demo_tick

theorem imageanalysis_pick_with_area (st : AppState) (bgr2 : Mat) (ca : ColorArea)
    (c : Scalar) (hpick : st.pickcurrent = true) (harea : st.colorarea = some ca)
    (havg : ca.GetAverageColor bgr2 = some c) (st3 : AppState) (ev3 : List Bool)
    (h3 : imageanalysis st bgr2 = some (st3, ev3)) :
    st3.pickcurrent = false ∧ st3.params.color = c := by
  rcases st with ⟨pc, cs, caop, ps, sv⟩
  dsimp only at hpick harea
  subst hpick; subst harea
  simp only [imageanalysis, Option.getD] at h3
  rw [havg] at h3
  dsimp only at h3
  split at h3
  · exact absurd h3 (by simp)
  · rename_i ns3 heq3
    split at h3 <;>
      · obtain ⟨hst, hev⟩ := Prod.mk.injEq .. ▸ Option.some.injEq .. ▸ h3
        subst hst
        exact ⟨rfl, rfl⟩

/-- C10: on a tick where a pick-current request is pending but no evaluator
is cached, the recalibration is deferred: the flag stays set, the stored
reference color is untouched, the evaluator is rebuilt from the unchanged
configuration, and on a subsequent completing tick (the evaluator now
cached) the recalibration takes effect — the flag clears and the reference
color becomes the measured average. -/
theorem imageanalysis_pickcurrent_deferred (st : AppState) (bgr bgr2 : Mat)
    (h1 : st.pickcurrent = true) (h2 : st.colorarea = none)
    (st2 : AppState) (events : List Bool)
    (h : imageanalysis st bgr = some (st2, events)) :
    st2.pickcurrent = true ∧
    st2.params = st.params ∧
    st2.colorarea = some (buildColorArea st.params bgr) ∧
    (∀ st3 ev3 c, imageanalysis st2 bgr2 = some (st3, ev3) →
      (buildColorArea st.params bgr).GetAverageColor bgr2 = some c →
      st3.pickcurrent = false ∧ st3.params.color = c) := by
  rcases st with ⟨pc, cs, caop, ps, sv⟩
  dsimp only at h1 h2 ⊢
  subst h1; subst h2
  simp only [imageanalysis, Option.getD] at h
  split at h
  · exact absurd h (by simp)
  · rename_i newstate heq2
    split at h
    all_goals
      obtain ⟨hst, hev⟩ := Prod.mk.injEq .. ▸ Option.some.injEq .. ▸ h
      subst hst
      refine ⟨rfl, rfl, rfl, ?_⟩
      intro st3 ev3 c h3 havg
      exact imageanalysis_pick_with_area _ bgr2 (buildColorArea ps bgr) c rfl rfl havg
        st3 ev3 h3

theorem demo_tick_pick : imageanalysis demoAppPick demoImg = some (demoAppPick2, [true]) := by
  rw [imageanalysis]
  simp only [demoAppPick, demoAppPick2, Option.getD, demo_build, demo_within,
    UpdateColorAreaValue]
  simp [demo_build, demo_within, UpdateColorAreaValue]

/-- C10 witness: a tick from a state with a pending pick-current request and
no cached evaluator leaves the request pending, the configuration untouched
and the evaluator rebuilt. -/
theorem imageanalysis_pickcurrent_deferred_witness :
    demoAppPick2.pickcurrent = true ∧
    demoAppPick2.params = demoAppPick.params ∧
    demoAppPick2.colorarea = some (buildColorArea demoAppPick.params demoImg) := by
  have T := imageanalysis_pickcurrent_deferred demoAppPick demoImg demoImg rfl rfl
    demoAppPick2 [true] demo_tick_pick
  exact ⟨T.1, T.2.1, T.2.2.1⟩

theorem cvMean_const (l : List Scalar) (c : Scalar) (hne : l ≠ [])
    (hall : ∀ x ∈ l, x = c) : cvMean l = c := by
  have hlen : l.length ≠ 0 := fun h0 => hne (List.length_eq_zero.mp h0)
  have hcast : (l.length : ℚ) ≠ 0 := Nat.cast_ne_zero.mpr hlen
  have key : ∀ (f : Scalar → ℚ) (cf : ℚ), (∀ x ∈ l, f x = cf) →
      (l.map f).sum / l.length = cf := by
    intro f cf hf
    have hrep : l.map f = List.replicate l.length cf := by
      rw [List.eq_replicate_iff]
      refine ⟨by simp, ?_⟩
      intro y hy
      obtain ⟨x, hx, rfl⟩ := List.mem_map.mp hy
      exact hf x hx
    rw [hrep, List.sum_replicate, nsmul_eq_mul]
    exact mul_div_cancel_left₀ cf hcast
  rcases c with ⟨cb, cg, cr⟩
  rw [cvMean, if_neg hlen]
  simp only [Scalar.mk.injEq]
  exact ⟨key Scalar.b cb (fun x hx => by rw [hall x hx]),
    key Scalar.g cg (fun x hx => by rw [hall x hx]),
    key Scalar.r cr (fun x hx => by rw [hall x hx])⟩

theorem maskedPixels_all_const (ca : ColorArea) (W H : ℕ) (c : Scalar) :
    ∀ x ∈ ca.maskedPixels (uniformMat W H c), x = c := by
  intro x hx
  rw [ColorArea.maskedPixels] at hx
  obtain ⟨j, hj, hx⟩ := List.mem_flatMap.mp hx
  obtain ⟨i, hi, hix⟩ := List.mem_filterMap.mp hx
  by_cases hm : ca.colorarea_mask_ (i : ℤ) (j : ℤ)
  · rw [if_pos hm] at hix
    exact (Option.some.inj hix).symm
  · rw [if_neg hm] at hix
    exact absurd hix (by simp)

theorem mem_maskedPixels (ca : ColorArea) (img : Mat) (i j : ℕ)
    (hi : i < (ca.croprange_x_.stop - ca.croprange_x_.start).toNat)
    (hj : j < (ca.croprange_y_.stop - ca.croprange_y_.start).toNat)
    (hm : ca.colorarea_mask_ (i : ℤ) (j : ℤ) = true) :
    img.pixel (ca.croprange_x_.start + (i : ℤ)).toNat
      (ca.croprange_y_.start + (j : ℤ)).toNat ∈ ca.maskedPixels img := by
  rw [ColorArea.maskedPixels]
  exact List.mem_flatMap.mpr ⟨j, List.mem_range.mpr hj,
    List.mem_filterMap.mpr ⟨i, List.mem_range.mpr hi, by rw [if_pos hm]⟩⟩

theorem make_inside_fields (img : Mat) (pc : ℤ × ℤ) (color : Scalar) (mw mh tol : ℕ)
    (hx0 : ((mw / 2 : ℕ) : ℤ) ≤ pc.1) (hxW : pc.1 + ((mw / 2 : ℕ) : ℤ) ≤ (img.width : ℤ))
    (hy0 : ((mh / 2 : ℕ) : ℤ) ≤ pc.2) (hyH : pc.2 + ((mh / 2 : ℕ) : ℤ) ≤ (img.height : ℤ)) :
    (ColorArea.make img pc color mw mh tol).croprange_x_ =
      ⟨pc.1 - ((mw / 2 : ℕ) : ℤ), pc.1 + ((mw / 2 : ℕ) : ℤ)⟩ ∧
    (ColorArea.make img pc color mw mh tol).croprange_y_ =
      ⟨pc.2 - ((mh / 2 : ℕ) : ℤ), pc.2 + ((mh / 2 : ℕ) : ℤ)⟩ ∧
    (ColorArea.make img pc color mw mh tol).point_center_ =
      (((mw / 2 : ℕ) : ℤ), ((mh / 2 : ℕ) : ℤ)) := by
  rw [ColorArea.make_croprange_x, ColorArea.make_croprange_y, ColorArea.make_point_center]
  refine ⟨?_, ?_, ?_⟩ <;> simp only [CvRange.mk.injEq, Prod.mk.injEq] <;>
    constructor <;> omega

theorem insideEllipse_center (p : ℤ × ℤ) (a b : ℕ) :
    insideEllipse p a b p.1 p.2 = true := by
  simp only [insideEllipse, decide_eq_true_eq, sub_self]
  positivity

/-- C2: for either shape and any geometry lying fully inside the image, the
masked mean over a uniformly colored image is exactly that color — the mean
ranges only over crop pixels the mask lets through (all of them for the
rectangle, the inscribed ellipse with semi-axes width/2 and height/2 at the
crop-relative center for the ellipse), and over a constant image any
non-empty masked selection averages to the constant. -/
theorem averageColor_uniform_exact (W H : ℕ) (c refc : Scalar) (cx cy : ℤ)
    (mw mh tol : ℕ) (shape : MarkerShape)
    (hx0 : ((mw / 2 : ℕ) : ℤ) ≤ cx) (hxW : cx + ((mw / 2 : ℕ) : ℤ) ≤ (W : ℤ))
    (hy0 : ((mh / 2 : ℕ) : ℤ) ≤ cy) (hyH : cy + ((mh / 2 : ℕ) : ℤ) ≤ (H : ℤ))
    (hmw : 0 < mw / 2) (hmh : 0 < mh / 2) :
    (buildColorArea ⟨(cx, cy), refc, mw, mh, shape, tol⟩
        (uniformMat W H c)).GetAverageColor (uniformMat W H c) = some c := by
  obtain ⟨hcx, hcy, hcc⟩ :=
    make_inside_fields (uniformMat W H c) (cx, cy) refc mw mh tol hx0 hxW hy0 hyH
  cases shape
  case Ellipse =>
    simp only [buildColorArea]
    rw [ColorArea.GetAverageColor, if_pos ⟨rfl, rfl⟩]
    refine congrArg some (cvMean_const _ c (List.ne_nil_of_mem (mem_maskedPixels
      (ColorAreaEllipse.make (uniformMat W H c) (cx, cy) refc mw mh tol)
      (uniformMat W H c) (mw / 2) (mh / 2) ?_ ?_ ?_)) (maskedPixels_all_const _ W H c))
    · show mw / 2 <
        ((ColorArea.make (uniformMat W H c) (cx, cy) refc mw mh tol).croprange_x_.stop -
         (ColorArea.make (uniformMat W H c) (cx, cy) refc mw mh tol).croprange_x_.start).toNat
      rw [hcx]
      dsimp only
      omega
    · show mh / 2 <
        ((ColorArea.make (uniformMat W H c) (cx, cy) refc mw mh tol).croprange_y_.stop -
         (ColorArea.make (uniformMat W H c) (cx, cy) refc mw mh tol).croprange_y_.start).toNat
      rw [hcy]
      dsimp only
      omega
    · show insideEllipse
        (ColorArea.make (uniformMat W H c) (cx, cy) refc mw mh tol).point_center_
        (mw / 2) (mh / 2) ((mw / 2 : ℕ) : ℤ) ((mh / 2 : ℕ) : ℤ) = true
      rw [hcc]
      exact insideEllipse_center (((mw / 2 : ℕ) : ℤ), ((mh / 2 : ℕ) : ℤ)) (mw / 2) (mh / 2)
  case Rectangle =>
    simp only [buildColorArea]
    rw [ColorArea.GetAverageColor, if_pos ⟨rfl, rfl⟩]
    refine congrArg some (cvMean_const _ c (List.ne_nil_of_mem (mem_maskedPixels
      (ColorAreaRectangle.make (uniformMat W H c) (cx, cy) refc mw mh tol)
      (uniformMat W H c) (mw / 2) (mh / 2) ?_ ?_ rfl)) (maskedPixels_all_const _ W H c))
    · show mw / 2 <
        ((ColorArea.make (uniformMat W H c) (cx, cy) refc mw mh tol).croprange_x_.stop -
         (ColorArea.make (uniformMat W H c) (cx, cy) refc mw mh tol).croprange_x_.start).toNat
      rw [hcx]
      dsimp only
      omega
    · show mh / 2 <
        ((ColorArea.make (uniformMat W H c) (cx, cy) refc mw mh tol).croprange_y_.stop -
         (ColorArea.make (uniformMat W H c) (cx, cy) refc mw mh tol).croprange_y_.start).toNat
      rw [hcy]
      dsimp only
      omega

/-- C2 witness: an elliptic marker of size 4x4 centered at (4, 4) in an 8x8
image uniformly colored (1, 2, 3) measures exactly (1, 2, 3). -/
theorem averageColor_uniform_exact_witness :
    (buildColorArea ⟨(4, 4), ⟨9, 9, 9⟩, 4, 4, MarkerShape.Ellipse, 17⟩
        (uniformMat 8 8 ⟨1, 2, 3⟩)).GetAverageColor (uniformMat 8 8 ⟨1, 2, 3⟩) =
      some ⟨1, 2, 3⟩ :=
  averageColor_uniform_exact 8 8 ⟨1, 2, 3⟩ ⟨9, 9, 9⟩ 4 4 4 4 17 MarkerShape.Ellipse
    (by decide) (by decide) (by decide) (by decide) (by decide) (by decide)
